import Mathlib

/-!
# MeshShader renderer (`Render.cpp`): frame ring, fence protocol, constant buffer

A shallow embedding of the parts of `Render.cpp` that carry invariants:
`CreateRender`, `Initialize`, `Draw`, `GetHardwareAdapter`, `ReadDataFromFile`.

Machine integers are natural numbers reduced explicitly (`UINT` modulo `2^32`,
`UINT64` and `size_t` modulo `2^64`).  Memory is a list of bytes.  What the
operating system, the swap chain and the GPU answer is an explicit argument of
each operation.
-/

namespace MeshShader

/-! ## Machine integers and bytes -/

/-- Number of values of a `UINT` (32 bits). -/
def UINT_MOD : Nat := 2 ^ 32

/-- Number of values of a `UINT64` or `size_t` (64 bits). -/
def UINT64_MOD : Nat := 2 ^ 64

/-- The four bytes of a 32-bit value, least significant first (x64). -/
def le32 (v : Nat) : List Nat :=
  [v % 256, v / 256 % 256, v / 65536 % 256, v / 16777216 % 256]

/-- Store `bytes` into `mem` starting at byte `off`. -/
def poke (mem : List Nat) (off : Nat) (bytes : List Nat) : List Nat :=
  mem.take off ++ bytes ++ mem.drop (off + bytes.length)

/-- The `n` bytes of `mem` starting at byte `off`. -/
def peek (mem : List Nat) (off n : Nat) : List Nat :=
  (mem.drop off).take n

/-- The C `memcpy(dst + off, src, n)`. -/
def memcpy (dst : List Nat) (off : Nat) (src : List Nat) (n : Nat) : List Nat :=
  poke dst off (src.take n)

/-! ## `SceneConstantBuffer` (lines 16-22) -/

/-- Round `x` up to a multiple of `a`. -/
def alignUp (x a : Nat) : Nat := (x + a - 1) / a * a

/-- Offsets of consecutive fields, each given as (size, alignment), laid out from `cur`. -/
def fieldOffsets : List (Nat × Nat) → Nat → List Nat
  | [], _ => []
  | (size, al) :: fs, cur => alignUp cur al :: fieldOffsets fs (alignUp cur al + size)

/-- End of the last field of a layout started at `cur`. -/
def fieldsEnd : List (Nat × Nat) → Nat → Nat
  | [], cur => cur
  | (size, al) :: fs, cur => fieldsEnd fs (alignUp cur al + size)

/-- Fields of `SceneConstantBuffer`: `XMFLOAT4X4 MVP` (16 floats), `UINT Counts[4]`,
`UINT NumMeshes`, `UINT NumMaterials`; each is 4-byte aligned. -/
def SceneConstantBuffer_fields : List (Nat × Nat) := [(64, 4), (16, 4), (4, 4), (4, 4)]

/-- Alignment requested by `_declspec(align(256u))`. -/
def SceneConstantBuffer_align : Nat := 256

/-- Byte offset of the `k`-th field of `SceneConstantBuffer`. -/
def SceneConstantBuffer_offset (k : Nat) : Nat :=
  (fieldOffsets SceneConstantBuffer_fields 0).getD k 0

/-- The value of `sizeof(SceneConstantBuffer)`: the fields, padded to the alignment. -/
def sizeofSceneConstantBuffer : Nat :=
  alignUp (fieldsEnd SceneConstantBuffer_fields 0) SceneConstantBuffer_align

/-- Byte offset of `MVP`. -/
def offMVP : Nat := SceneConstantBuffer_offset 0

/-- Byte offset of `Counts`. -/
def offCounts : Nat := SceneConstantBuffer_offset 1

/-- Byte offset of `NumMeshes`. -/
def offNumMeshes : Nat := SceneConstantBuffer_offset 2

/-- Byte offset of `NumMaterials`. -/
def offNumMaterials : Nat := SceneConstantBuffer_offset 3

/-! ## Command list and device calls -/

/-- Resource states used by the transition barriers of `Draw`. -/
inductive ResourceState where
  | PRESENT
  | RENDER_TARGET
  deriving DecidableEq, Repr

/-- Commands `Draw` records into the command list.  A render target is named by
its index in `renderTargets`. -/
inductive Cmd where
  | SetGraphicsRootSignature
  | RSSetViewports
  | RSSetScissorRects
  | ResourceBarrier (renderTarget : Nat) (before after : ResourceState)
  | OMSetRenderTargets (rtvHandle : Nat)
  | ClearRenderTargetView (rtvHandle : Nat)
  | ClearDepthStencilView
  | SetGraphicsRootConstantBufferView (offset : Nat)
  | DispatchMesh (x y z : Nat)
  deriving DecidableEq, Repr

/-- Calls `Draw` makes on the allocator, the command list, the queue, the swap
chain and the fence. -/
inductive Call where
  | AllocatorReset (slot : Nat)
  | CommandListReset (slot : Nat)
  | Close
  | ExecuteCommandLists (cmds : List Cmd)
  | Present
  | Signal (value : Nat)
  | GetCurrentBackBufferIndex
  | GetCompletedValue
  | SetEventOnCompletion (value : Nat)
  | WaitForSingleObjectEx
  deriving DecidableEq, Repr

/-! ## Descriptor handles -/

/-- Modelled from the spec: `CD3DX12_CPU_DESCRIPTOR_HANDLE::Offset` of `d3dx12.h`,
which is not among the sources; the spec says all handle addressing is
`baseHandle + index * stride`. -/
def Offset (handle offsetInDescriptors descriptorIncrementSize : Nat) : Nat :=
  handle + offsetInDescriptors * descriptorIncrementSize

/-- Modelled from the spec: the constructor
`CD3DX12_CPU_DESCRIPTOR_HANDLE(base, offsetInDescriptors, descriptorIncrementSize)` of
`d3dx12.h`, which is not among the sources; the spec says all handle addressing is
`baseHandle + index * stride`. -/
def CD3DX12_CPU_DESCRIPTOR_HANDLE (base offsetInDescriptors descriptorIncrementSize : Nat) :
    Nat :=
  base + offsetInDescriptors * descriptorIncrementSize

/-! ## The `Render` structure (lines 24-65) -/

/-- The fields of `Render` that `Initialize` and `Draw` compute with, the mapped
constant buffer, and the history of what was sent to the device. -/
structure Render where
  /-- Field `frameCount`. -/
  frameCount : Nat
  /-- Field `frameIndex`. -/
  frameIndex : Nat
  /-- Start of the RTV heap, `rtvHeap->GetCPUDescriptorHandleForHeapStart()`. -/
  rtvHeapStart : Nat
  /-- Field `rtvDescriptorSize`. -/
  rtvDescriptorSize : Nat
  /-- Handle at which the view of swap-chain buffer `n` was created. -/
  rtvViews : List Nat
  /-- Bytes of the field `constantBufferData`. -/
  constantBufferData : List Nat
  /-- Bytes of the mapped constant buffer, starting at `cbvDataBegin`. -/
  cbv : List Nat
  /-- Field `fenceValues`, a `std::vector<UINT>`. -/
  fenceValues : List Nat
  /-- Commands held by `commandList`. -/
  commandList : List Cmd
  /-- Every call made so far, oldest first. -/
  calls : List Call
  /-- One entry per `Draw`, oldest first: the slot it submitted and the value it
  then passed to `Signal`. -/
  submits : List (Nat × Nat)
  /-- The completed value of the fence when the last call returned. -/
  completed : Nat

/-- The values passed to `commandQueue->Signal`, oldest first. -/
def Render.signals (r : Render) : List Nat := r.submits.map Prod.snd

/-- The greatest value the queue has been asked to signal, `0` (the initial value of
the fence) before any `Signal`. -/
def Render.target (r : Render) : Nat := r.signals.foldl max 0

/-- The value signalled right after the most recent submission of `slot`. -/
def lastSubmit (submits : List (Nat × Nat)) (slot : Nat) : Option Nat :=
  (submits.reverse.find? (fun p => p.1 == slot)).map Prod.snd

/-! ## `CreateRender` and `Initialize` -/

/-- What `Initialize` reads from the device and the swap chain. -/
structure InitEnv where
  /-- Result of `GetCurrentBackBufferIndex()` at line 238. -/
  backBuffer : Nat
  /-- Start of the RTV heap. -/
  rtvHeapStart : Nat
  /-- Result of `GetDescriptorHandleIncrementSize(RTV)`. -/
  rtvDescriptorSize : Nat
  /-- Initial byte of the mapped buffer at each position. -/
  mapped : Nat → Nat
  /-- Initial byte of `constantBufferData` at each position (`new Render` leaves it
  unset). -/
  junk : Nat → Nat

/-- Line 288: `sizeof(SceneConstantBuffer) * render->frameCount` as a `UINT64`. -/
def constantBufferSize (frameCount : Nat) : Nat :=
  (sizeofSceneConstantBuffer * frameCount) % UINT64_MOD

/-- Byte offset of the constant region of a slot, lines 389 and 406:
`sizeof(SceneConstantBuffer) * render->frameIndex` in `size_t` arithmetic. -/
def cbOffset (frameIndex : Nat) : Nat :=
  (sizeofSceneConstantBuffer * frameIndex) % UINT64_MOD

/-- The function `CreateRender` (lines 144-163); `width` and `height` are not modelled. -/
def CreateRender (frameCount : Nat) (junk : Nat → Nat) : Render :=
  { frameCount := frameCount
    frameIndex := 0
    rtvHeapStart := 0
    rtvDescriptorSize := 0
    rtvViews := []
    constantBufferData := (List.range sizeofSceneConstantBuffer).map junk
    cbv := []
    fenceValues := List.replicate frameCount 0
    commandList := []
    calls := []
    submits := []
    completed := 0 }

/-- The loop of lines 250-257: the handle of each created view, `rtvHandle` being
advanced by `Offset(1, rtvDescriptorSize)` after each. -/
def Initialize_rtvLoop (rtvDescriptorSize : Nat) : Nat → Nat → List Nat
  | 0, _ => []
  | n + 1, rtvHandle =>
    rtvHandle :: Initialize_rtvLoop rtvDescriptorSize n (Offset rtvHandle 1 rtvDescriptorSize)

/-- The function `Initialize` (lines 170-373) on the modelled fields, along the path
where no call fails. -/
def Initialize (frameCount : Nat) (env : InitEnv) : Render :=
  let render := CreateRender frameCount env.junk
  let frameIndex := env.backBuffer
  { render with
    frameIndex := frameIndex
    rtvHeapStart := env.rtvHeapStart
    rtvDescriptorSize := env.rtvDescriptorSize
    rtvViews := Initialize_rtvLoop env.rtvDescriptorSize frameCount env.rtvHeapStart
    cbv := (List.range (constantBufferSize frameCount)).map env.mapped
    fenceValues :=
      render.fenceValues.set frameIndex ((render.fenceValues.getD frameIndex 0 + 1) % UINT_MOD)
    completed := 0 }

/-! ## `Draw` (lines 375-440) -/

/-- What one `Draw` reads from the swap chain and the fence. -/
structure DrawEnv where
  /-- The 64 bytes `XMStoreFloat4x4` stores for the transposed projection matrix. -/
  mvp : List Nat
  /-- Result of `GetCurrentBackBufferIndex()` after `Present`. -/
  next : Nat
  /-- Result of `fence->GetCompletedValue()`. -/
  seen : Nat
  /-- Completed value of the fence when `WaitForSingleObjectEx` returns. -/
  woken : Nat

/-- Lines 382-388: the stores into `constantBufferData`. -/
def Draw_constants (constantBufferData mvp : List Nat) : List Nat :=
  let d := poke constantBufferData offMVP mvp
  let d := poke d (offCounts + 4 * 0) (le32 230)
  let d := poke d (offCounts + 4 * 1) (le32 130)
  let d := poke d (offCounts + 4 * 2) (le32 0)
  let d := poke d (offCounts + 4 * 3) (le32 0)
  let d := poke d offNumMeshes (le32 256)
  poke d offNumMaterials (le32 1024)

/-- Lines 391-418: the commands recorded between `Reset` and `Close`. -/
def Draw_commands (render : Render) : List Cmd :=
  let rtvHandle :=
    CD3DX12_CPU_DESCRIPTOR_HANDLE render.rtvHeapStart render.frameIndex render.rtvDescriptorSize
  [ Cmd.SetGraphicsRootSignature,
    Cmd.RSSetViewports,
    Cmd.RSSetScissorRects,
    Cmd.ResourceBarrier render.frameIndex ResourceState.PRESENT ResourceState.RENDER_TARGET,
    Cmd.OMSetRenderTargets rtvHandle,
    Cmd.ClearRenderTargetView rtvHandle,
    Cmd.ClearDepthStencilView,
    Cmd.SetGraphicsRootConstantBufferView (cbOffset render.frameIndex),
    Cmd.DispatchMesh 230 130 1,
    Cmd.ResourceBarrier render.frameIndex ResourceState.RENDER_TARGET ResourceState.PRESENT ]

/-- The calls of one `Draw`, in program order. -/
def Draw_calls (render : Render) (env : DrawEnv) : List Call :=
  let currentFenceValue := render.fenceValues.getD render.frameIndex 0
  let awaited := render.fenceValues.getD env.next 0
  [ Call.AllocatorReset render.frameIndex,
    Call.CommandListReset render.frameIndex,
    Call.Close,
    Call.ExecuteCommandLists (Draw_commands render),
    Call.Present,
    Call.Signal currentFenceValue,
    Call.GetCurrentBackBufferIndex,
    Call.GetCompletedValue ] ++
  (if env.seen < awaited then [Call.SetEventOnCompletion awaited, Call.WaitForSingleObjectEx]
   else [])

/-- The function `Draw`. -/
def Draw (render : Render) (env : DrawEnv) : Render :=
  let data := Draw_constants render.constantBufferData env.mvp
  let cbv := memcpy render.cbv (cbOffset render.frameIndex) data sizeofSceneConstantBuffer
  let currentFenceValue := render.fenceValues.getD render.frameIndex 0
  let frameIndex := env.next
  let awaited := render.fenceValues.getD frameIndex 0
  { render with
    constantBufferData := data
    cbv := cbv
    commandList := Draw_commands render
    calls := render.calls ++ Draw_calls render env
    submits := render.submits ++ [(render.frameIndex, currentFenceValue)]
    frameIndex := frameIndex
    completed := if env.seen < awaited then env.woken else env.seen
    fenceValues :=
      render.fenceValues.set frameIndex (((currentFenceValue + 1) % UINT64_MOD) % UINT_MOD) }

/-- A sequence of `Draw` calls. -/
def runDraws (render : Render) (envs : List DrawEnv) : Render :=
  envs.foldl Draw render

/-! ## Runs and what the swap chain and the GPU may answer -/

/-- Every reported back-buffer index is below `frameCount`. -/
def InRange (frameCount : Nat) (envs : List DrawEnv) : Prop :=
  ∀ e ∈ envs, e.next < frameCount

/-- The answers one `Draw` may get: the reported back-buffer index is below
`frameCount`; a completed value is `0` or a value the queue has been asked to signal
(the one this `Draw` signals included); and the wait returns only once the fence has
reached the awaited value. -/
def envOk (r : Render) (e : DrawEnv) : Prop :=
  e.next < r.frameCount ∧
  e.seen ∈ 0 :: (r.signals ++ [r.fenceValues.getD r.frameIndex 0]) ∧
  (e.seen < r.fenceValues.getD e.next 0 →
    e.woken ∈ 0 :: (r.signals ++ [r.fenceValues.getD r.frameIndex 0]) ∧
    r.fenceValues.getD e.next 0 ≤ e.woken)

/-- Every `Draw` of the run gets answers allowed by `envOk`. -/
def Admissible : Render → List DrawEnv → Prop
  | _, [] => True
  | r, e :: es => envOk r e ∧ Admissible (Draw r e) es

/-- No premature reuse, for the slot that is current: it was never submitted, or the
fence has completed the value signalled after its most recent submission. -/
def ReuseSafe (r : Render) : Prop :=
  lastSubmit r.submits r.frameIndex = none ∨
  ∃ v, lastSubmit r.submits r.frameIndex = some v ∧ v ≤ r.completed

/-- What the remembered values of the slots that are not current stand for: such a slot
was never submitted and remembers 0, or it remembers the value signalled right after
its most recent submission. -/
def SlotsRecorded (r : Render) : Prop :=
  ∀ x, x ≠ r.frameIndex →
    (lastSubmit r.submits x = none ∧ r.fenceValues.getD x 0 = 0) ∨
    lastSubmit r.submits x = some (r.fenceValues.getD x 0)

/-! ## Observations on a command list -/

/-- Whether a command is a resource barrier. -/
def Cmd.isBarrier : Cmd → Bool
  | Cmd.ResourceBarrier _ _ _ => true
  | _ => false

/-- Whether a call is `Present`. -/
def Call.isPresent : Call → Bool
  | Call.Present => true
  | _ => false

/-- State of render target `rt` after the commands, starting from state `s`; `none`
when a barrier on `rt` names a state it is not in. -/
def stateAfter (rt : Nat) : ResourceState → List Cmd → Option ResourceState
  | s, [] => some s
  | s, Cmd.ResourceBarrier r b a :: cs =>
    if r = rt then (if b = s then stateAfter rt a cs else none) else stateAfter rt s cs
  | s, _ :: cs => stateAfter rt s cs

/-- The render-target-view handles a command list uses, in order: the handle bound by
each `OMSetRenderTargets` and the handle cleared by each `ClearRenderTargetView`. -/
def rtvHandlesUsed : List Cmd → List Nat
  | [] => []
  | Cmd.OMSetRenderTargets h :: cs => h :: rtvHandlesUsed cs
  | Cmd.ClearRenderTargetView h :: cs => h :: rtvHandlesUsed cs
  | _ :: cs => rtvHandlesUsed cs

/-! ## `ThrowIfFailed` (lines 67-70) -/

/-- The function `ThrowIfFailed`: `_ASSERT(SUCCEEDED(hr))`, the assertion failing when
the call did not succeed. -/
def ThrowIfFailed (succeeded : Bool) : Except Unit Unit :=
  if succeeded then Except.ok () else Except.error ()

/-! ## `GetHardwareAdapter` (lines 72-91) and the device creation of `Initialize` -/

/-- Feature levels named in the source. -/
inductive FeatureLevel where
  | L11_0
  | L12_1
  deriving DecidableEq, Repr

/-- An adapter as `GetDesc1` describes it. -/
structure Adapter where
  /-- Identity of the adapter. -/
  id : Nat
  /-- Whether `desc.Flags & DXGI_ADAPTER_FLAG_SOFTWARE` is set. -/
  software : Bool
  deriving DecidableEq, Repr

/-- What DXGI and D3D12 answer. -/
structure Dxgi where
  /-- The adapters in the order of `EnumAdapterByGpuPreference(.., HIGH_PERFORMANCE, ..)`. -/
  adapters : List Adapter
  /-- Whether `D3D12CreateDevice(adapter, level, ..)` succeeds; `none` is the null
  adapter. -/
  D3D12CreateDevice : Option Adapter → FeatureLevel → Bool

/-- The loop of lines 78-88 over the adapters not yet enumerated; the result is the
value of `adapter` when the loop is left (null once enumeration reports
`DXGI_ERROR_NOT_FOUND`, `&adapter` having released the pointer). -/
def GetHardwareAdapter_loop (env : Dxgi) : List Adapter → Option Adapter
  | [] => none
  | adapter :: rest =>
    if adapter.software then GetHardwareAdapter_loop env rest
    else if env.D3D12CreateDevice (some adapter) FeatureLevel.L12_1 then some adapter
    else GetHardwareAdapter_loop env rest

/-- The function `GetHardwareAdapter`: the value stored in `*ppAdapter`. -/
def GetHardwareAdapter (env : Dxgi) : Option Adapter :=
  GetHardwareAdapter_loop env env.adapters

/-- Lines 196-208 of `Initialize` (`useWarpDevice` is `false`): the adapter the device
was created with, or the failure of `ThrowIfFailed`. -/
def Initialize_device (env : Dxgi) : Except Unit (Option Adapter) :=
  let hardwareAdapter := GetHardwareAdapter env
  match ThrowIfFailed (env.D3D12CreateDevice hardwareAdapter FeatureLevel.L11_0) with
  | Except.ok _ => Except.ok hardwareAdapter
  | Except.error e => Except.error e

/-- An adapter qualifies when it is not software and a device at feature level 12_1
can be created on it. -/
def qualifies (env : Dxgi) (a : Adapter) : Bool :=
  !a.software && env.D3D12CreateDevice (some a) FeatureLevel.L12_1

/-! ## `ReadDataFromFile` (lines 93-129) -/

/-- What the file system answers for one file name. -/
structure File where
  /-- Whether `CreateFile2` returns a valid handle. -/
  exist : Bool
  /-- Whether `GetFileInformationByHandleEx` succeeds. -/
  infoOk : Bool
  /-- The 64-bit size `fileInfo.EndOfFile`. -/
  EndOfFile : Nat
  /-- The bytes of the file. -/
  contents : List Nat
  /-- Whether `ReadFile` returns nonzero. -/
  readOk : Bool
  /-- Number of bytes `ReadFile` delivers when asked for the whole file. -/
  delivered : Nat

/-- A file as the file system can present it: the size fits 64 bits, the contents have
that size, and a read delivers no more than the file holds. -/
def File.WF (f : File) : Prop :=
  f.EndOfFile < UINT64_MOD ∧ f.contents.length = f.EndOfFile ∧ f.delivered ≤ f.EndOfFile

/-- The call `ReadFile(file, buffer, nNumberOfBytesToRead, nullptr, nullptr)`: whether it
reports success, and the buffer afterwards. -/
def ReadFile (f : File) (buffer : List Nat) (nNumberOfBytesToRead : Nat) : Bool × List Nat :=
  (f.readOk, poke buffer 0 (f.contents.take (min f.delivered nNumberOfBytesToRead)))

/-- The function `ReadDataFromFile`: `Except.error` is the thrown exception, the result
is `(*data, *size)`; `heap` gives the initial bytes of the block `malloc` returns. -/
def ReadDataFromFile (f : File) (heap : Nat → Nat) : Except Unit (List Nat × Nat) :=
  if !f.exist then Except.error ()
  else if !f.infoOk then Except.error ()
  else if f.EndOfFile / UINT_MOD % UINT_MOD ≠ 0 then Except.error ()
  else
    let LowPart := f.EndOfFile % UINT_MOD
    let data := (List.range LowPart).map heap
    let size := LowPart
    let read := ReadFile f data LowPart
    if !read.1 then Except.error ()
    else Except.ok (read.2, size)

/-- A read is truncated when it delivers fewer bytes than the file holds. -/
def truncated (f : File) : Prop := f.delivered < f.EndOfFile

/-! ## Concrete runs -/

instance envOk_decidable (r : Render) (e : DrawEnv) : Decidable (envOk r e) := by
  unfold envOk
  infer_instance

instance Admissible_decidable : (envs : List DrawEnv) → (r : Render) → Decidable (Admissible r envs)
  | [], _ => isTrue trivial
  | e :: es, r =>
    match envOk_decidable r e, Admissible_decidable es (Draw r e) with
    | isTrue h1, isTrue h2 => isTrue ⟨h1, h2⟩
    | isFalse h1, _ => isFalse (fun h => h1 h.1)
    | _, isFalse h2 => isFalse (fun h => h2 h.2)

/-- An initialization whose swap chain starts at back buffer 0. -/
def exampleInit : InitEnv :=
  { backBuffer := 0, rtvHeapStart := 4096, rtvDescriptorSize := 32,
    mapped := fun _ => 0, junk := fun _ => 0 }

/-- Two draws on two slots: the first finds slot 1 never used; the second returns to
slot 0 while the fence is still at 0, waits, and wakes with the fence at 1. -/
def exampleRun : List DrawEnv :=
  [ { mvp := List.replicate 64 0, next := 1, seen := 0, woken := 0 },
    { mvp := List.replicate 64 0, next := 0, seen := 0, woken := 1 } ]

/-- The answers to the `k`-th `Draw` (counted from 0) of a run on three buffers that
rotate in order while the GPU keeps up: the fence has completed the value just
signalled, and no wait happens. -/
def keepUpEnv (k : Nat) : DrawEnv :=
  { mvp := List.replicate 64 0, next := (k + 1) % 3,
    seen := (k + 1) % UINT_MOD, woken := (k + 1) % UINT_MOD }

/-- A run of `2^32` draws on three rotating buffers. -/
def wrapRun : List DrawEnv := (List.range (2 ^ 32)).map keepUpEnv

/-! ## Layout facts -/

theorem sizeofSceneConstantBuffer_eq : sizeofSceneConstantBuffer = 256 := by decide

theorem offMVP_eq : offMVP = 0 := by decide

theorem offCounts_eq : offCounts = 64 := by decide

theorem offNumMeshes_eq : offNumMeshes = 80 := by decide

theorem offNumMaterials_eq : offNumMaterials = 84 := by decide

theorem cbOffset_eq (i : Nat) (hi : i < UINT_MOD) : cbOffset i = 256 * i := by
  unfold cbOffset
  rw [sizeofSceneConstantBuffer_eq]
  unfold UINT_MOD at hi
  unfold UINT64_MOD
  omega

theorem constantBufferSize_eq (N : Nat) (hN : N < UINT_MOD) : constantBufferSize N = 256 * N := by
  unfold constantBufferSize
  rw [sizeofSceneConstantBuffer_eq]
  unfold UINT_MOD at hN
  unfold UINT64_MOD
  omega

/-! ## C4: the constant regions of the slots -/

/-- C4: for every `frameCount` `N` (a `UINT`) and slots `i ≠ j` below `N`, with
`offset(i) = sizeof(SceneConstantBuffer) * i` computed as the code does: no byte lies in
both regions, `offset(i + 1) = offset(i) + regionSize`, `offset(i) = i * regionSize`,
and region `i` ends inside the `constantBufferSize` the buffer is created with. -/
theorem constant_regions_disjoint_contiguous (N i j : Nat) (hN : N < UINT_MOD)
    (hi : i < N) (hj : j < N) (hij : i ≠ j) :
    (∀ p, ¬ ((cbOffset i ≤ p ∧ p < cbOffset i + sizeofSceneConstantBuffer) ∧
             (cbOffset j ≤ p ∧ p < cbOffset j + sizeofSceneConstantBuffer))) ∧
    cbOffset (i + 1) = cbOffset i + sizeofSceneConstantBuffer ∧
    cbOffset i = i * sizeofSceneConstantBuffer ∧
    cbOffset i + sizeofSceneConstantBuffer ≤ constantBufferSize N ∧
    constantBufferSize N = N * sizeofSceneConstantBuffer := by
  have hN2 : N < 2 ^ 32 := hN
  have e1 : cbOffset i = 256 * i := cbOffset_eq i (by unfold UINT_MOD; omega)
  have e2 : cbOffset j = 256 * j := cbOffset_eq j (by unfold UINT_MOD; omega)
  have e3 : cbOffset (i + 1) = 256 * (i + 1) := cbOffset_eq (i + 1) (by unfold UINT_MOD; omega)
  have e4 : constantBufferSize N = 256 * N := constantBufferSize_eq N hN
  rw [e1, e2, e3, e4, sizeofSceneConstantBuffer_eq]
  refine ⟨?_, ?_, ?_, ?_, ?_⟩
  · intro p
    omega
  · omega
  · omega
  · omega
  · omega

theorem constant_regions_disjoint_contiguous_witness :
    (∀ p, ¬ ((cbOffset 0 ≤ p ∧ p < cbOffset 0 + sizeofSceneConstantBuffer) ∧
             (cbOffset 2 ≤ p ∧ p < cbOffset 2 + sizeofSceneConstantBuffer))) ∧
    cbOffset (0 + 1) = cbOffset 0 + sizeofSceneConstantBuffer ∧
    cbOffset 0 = 0 * sizeofSceneConstantBuffer ∧
    cbOffset 0 + sizeofSceneConstantBuffer ≤ constantBufferSize 3 ∧
    constantBufferSize 3 = 3 * sizeofSceneConstantBuffer :=
  constant_regions_disjoint_contiguous 3 0 2 (by decide) (by decide) (by decide) (by decide)

/-! ## The loop creating the render-target views -/

theorem Initialize_rtvLoop_getElem? (s : Nat) :
    ∀ (count rtvHandle n : Nat), n < count →
      (Initialize_rtvLoop s count rtvHandle)[n]? = some (rtvHandle + n * s) := by
  intro count
  induction count with
  | zero => intro _ n h; omega
  | succ k ih =>
    intro h n hn
    cases n with
    | zero => simp [Initialize_rtvLoop]
    | succ m =>
      have hm := ih (Offset h 1 s) m (by omega)
      simp only [Initialize_rtvLoop, List.getElem?_cons_succ]
      rw [hm]
      simp only [Offset]
      congr 1
      ring

theorem Initialize_rtvViews (N : Nat) (env : InitEnv) :
    (Initialize N env).rtvViews = Initialize_rtvLoop env.rtvDescriptorSize N env.rtvHeapStart :=
  rfl

/-! ## C6: one present and one balanced barrier pair per `Draw` -/

/-- C6: every `Draw` appends its calls to the history; among them is exactly one
`Present`, preceded directly by `Close` and `ExecuteCommandLists` of the list just
recorded; that list holds exactly two barriers, both on `renderTargets[frameIndex]`,
first PRESENT to RENDER_TARGET and last RENDER_TARGET to PRESENT, with the two clears and
`DispatchMesh` between them; so the back buffer starts and ends the list in PRESENT. -/
theorem one_present_balanced_barriers (r : Render) (e : DrawEnv) :
    (Draw r e).calls = r.calls ++ Draw_calls r e ∧
    (Draw r e).commandList = Draw_commands r ∧
    (Draw_calls r e).countP Call.isPresent = 1 ∧
    (∃ before after, Draw_calls r e =
        before ++ [Call.Close, Call.ExecuteCommandLists (Draw_commands r), Call.Present] ++ after ∧
        (∀ c ∈ before, c.isPresent = false) ∧ (∀ c ∈ after, c.isPresent = false)) ∧
    (Draw_commands r).filter Cmd.isBarrier =
      [Cmd.ResourceBarrier r.frameIndex ResourceState.PRESENT ResourceState.RENDER_TARGET,
       Cmd.ResourceBarrier r.frameIndex ResourceState.RENDER_TARGET ResourceState.PRESENT] ∧
    (∃ pre mid, Draw_commands r =
        pre ++ [Cmd.ResourceBarrier r.frameIndex ResourceState.PRESENT ResourceState.RENDER_TARGET] ++
          mid ++ [Cmd.ResourceBarrier r.frameIndex ResourceState.RENDER_TARGET ResourceState.PRESENT] ∧
        (∃ h, Cmd.ClearRenderTargetView h ∈ mid) ∧ Cmd.ClearDepthStencilView ∈ mid ∧
        (∃ x y z, Cmd.DispatchMesh x y z ∈ mid)) ∧
    stateAfter r.frameIndex ResourceState.PRESENT (Draw_commands r) =
      some ResourceState.PRESENT := by
  refine ⟨rfl, rfl, ?_, ?_, ?_, ?_, ?_⟩
  · simp only [Draw_calls]
    split <;> simp [Call.isPresent, List.countP_cons]
  · refine ⟨[Call.AllocatorReset r.frameIndex, Call.CommandListReset r.frameIndex],
      [Call.Signal (r.fenceValues.getD r.frameIndex 0), Call.GetCurrentBackBufferIndex,
        Call.GetCompletedValue] ++
      (if e.seen < r.fenceValues.getD e.next 0 then
        [Call.SetEventOnCompletion (r.fenceValues.getD e.next 0), Call.WaitForSingleObjectEx]
       else []), ?_, ?_, ?_⟩
    · simp [Draw_calls]
    · intro c hc
      simp at hc
      rcases hc with h | h <;> subst h <;> rfl
    · intro c hc
      split at hc
      · simp at hc
        rcases hc with h | h | h | h | h <;> subst h <;> rfl
      · simp at hc
        rcases hc with h | h | h <;> subst h <;> rfl
  · simp [Draw_commands, Cmd.isBarrier, List.filter]
  · refine ⟨[Cmd.SetGraphicsRootSignature, Cmd.RSSetViewports, Cmd.RSSetScissorRects],
      [Cmd.OMSetRenderTargets (CD3DX12_CPU_DESCRIPTOR_HANDLE r.rtvHeapStart r.frameIndex
          r.rtvDescriptorSize),
       Cmd.ClearRenderTargetView (CD3DX12_CPU_DESCRIPTOR_HANDLE r.rtvHeapStart r.frameIndex
          r.rtvDescriptorSize),
       Cmd.ClearDepthStencilView,
       Cmd.SetGraphicsRootConstantBufferView (cbOffset r.frameIndex),
       Cmd.DispatchMesh 230 130 1], ?_, ?_, ?_, ?_⟩
    · simp [Draw_commands]
    · exact ⟨CD3DX12_CPU_DESCRIPTOR_HANDLE r.rtvHeapStart r.frameIndex r.rtvDescriptorSize,
        by simp⟩
    · simp
    · exact ⟨230, 130, 1, by simp⟩
  · simp [Draw_commands, stateAfter]

/-! ## Storing and reading bytes -/

theorem poke_length (mem : List Nat) (off : Nat) (b : List Nat) (h : off + b.length ≤ mem.length) :
    (poke mem off b).length = mem.length := by
  simp [poke]
  omega

theorem peek_poke (mem : List Nat) (off : Nat) (b : List Nat) (h : off ≤ mem.length) :
    peek (poke mem off b) off b.length = b := by
  unfold peek poke
  have h1 : (List.take off mem).length = off := by simp; omega
  rw [List.append_assoc, List.drop_append_of_le_length (by omega)]
  rw [List.drop_of_length_le (by omega)]
  simp

theorem poke_getElem?_lt (mem : List Nat) (off : Nat) (b : List Nat) (p : Nat) (hp : p < off)
    (h : off ≤ mem.length) : (poke mem off b)[p]? = mem[p]? := by
  unfold poke
  have h1 : (List.take off mem).length = off := by simp; omega
  rw [List.append_assoc, List.getElem?_append_left (by omega)]
  rw [List.getElem?_take_of_lt hp]

theorem poke_getElem?_ge (mem : List Nat) (off : Nat) (b : List Nat) (p : Nat)
    (hp : off + b.length ≤ p) (h : off ≤ mem.length) : (poke mem off b)[p]? = mem[p]? := by
  unfold poke
  have h1 : (List.take off mem ++ b).length = off + b.length := by simp; omega
  rw [List.getElem?_append_right (by omega), h1, List.getElem?_drop]
  congr 1
  omega

theorem poke_poke_adjacent (mem : List Nat) (off : Nat) (b1 b2 : List Nat)
    (h : off + b1.length ≤ mem.length) :
    poke (poke mem off b1) (off + b1.length) b2 = poke mem off (b1 ++ b2) := by
  unfold poke
  have h1 : (List.take off mem ++ b1).length = off + b1.length := by simp; omega
  have e1 : List.take (off + b1.length) (List.take off mem ++ b1 ++ List.drop (off + b1.length) mem)
      = List.take off mem ++ b1 := by
    rw [List.take_append_of_le_length (by omega), List.take_of_length_le (by omega)]
  have e2 : List.drop (off + b1.length + b2.length)
      (List.take off mem ++ b1 ++ List.drop (off + b1.length) mem)
      = List.drop (off + (b1 ++ b2).length) mem := by
    rw [List.drop_append_eq_append_drop, List.drop_of_length_le (by omega), h1]
    simp
    congr 1
    omega
  rw [e1, e2]
  simp

/-! ## C8: adapter selection -/

theorem GetHardwareAdapter_loop_eq_find? (env : Dxgi) (l : List Adapter) :
    GetHardwareAdapter_loop env l = l.find? (qualifies env) := by
  induction l with
  | nil => rfl
  | cons a rest ih =>
    cases hs : a.software <;> cases hc : env.D3D12CreateDevice (some a) FeatureLevel.L12_1 <;>
      simp [GetHardwareAdapter_loop, List.find?_cons, qualifies, hs, hc, ih]

/-- C8, the claim fails: where the only adapter is a software adapter and
`D3D12CreateDevice` accepts the null adapter (it then uses the default adapter), no
adapter qualifies, `GetHardwareAdapter` returns null, and `Initialize` creates the device
instead of failing. -/
theorem adapter_failure_counterexample :
    (∀ a ∈ (⟨[⟨0, true⟩], fun _ _ => true⟩ : Dxgi).adapters,
      qualifies ⟨[⟨0, true⟩], fun _ _ => true⟩ a = false) ∧
    GetHardwareAdapter ⟨[⟨0, true⟩], fun _ _ => true⟩ = none ∧
    Initialize_device ⟨[⟨0, true⟩], fun _ _ => true⟩ = Except.ok none := by
  refine ⟨?_, rfl, rfl⟩
  intro a ha
  simp at ha
  subst ha
  rfl

/-- C8 as amended: `GetHardwareAdapter` returns the first adapter of the list that is
not software and on which a device at feature level 12_1 can be created, never a
software adapter, and null exactly when no adapter qualifies; `Initialize` then passes
that result, null included, to `D3D12CreateDevice` at feature level 11_0 and fails
exactly when this call fails. -/
theorem hardware_adapter_selection (env : Dxgi) :
    GetHardwareAdapter env = env.adapters.find? (qualifies env) ∧
    (∀ a, GetHardwareAdapter env = some a →
      a ∈ env.adapters ∧ a.software = false ∧
      env.D3D12CreateDevice (some a) FeatureLevel.L12_1 = true) ∧
    (GetHardwareAdapter env = none ↔ ∀ a ∈ env.adapters, qualifies env a = false) ∧
    (Initialize_device env = Except.ok (GetHardwareAdapter env) ↔
      env.D3D12CreateDevice (GetHardwareAdapter env) FeatureLevel.L11_0 = true) ∧
    (Initialize_device env = Except.error () ↔
      env.D3D12CreateDevice (GetHardwareAdapter env) FeatureLevel.L11_0 = false) := by
  have hfind : GetHardwareAdapter env = env.adapters.find? (qualifies env) :=
    GetHardwareAdapter_loop_eq_find? env env.adapters
  refine ⟨hfind, ?_, ?_, ?_, ?_⟩
  · intro a ha
    rw [hfind] at ha
    have hq : qualifies env a = true := List.find?_some ha
    have hmem : a ∈ env.adapters := List.mem_of_find?_eq_some ha
    simp only [qualifies, Bool.and_eq_true, Bool.not_eq_true'] at hq
    exact ⟨hmem, hq.1, hq.2⟩
  · rw [hfind, List.find?_eq_none]
    simp
  · cases h : env.D3D12CreateDevice (GetHardwareAdapter env) FeatureLevel.L11_0 <;>
      simp [Initialize_device, ThrowIfFailed, h]
  · cases h : env.D3D12CreateDevice (GetHardwareAdapter env) FeatureLevel.L11_0 <;>
      simp [Initialize_device, ThrowIfFailed, h]

/-! ## C7: reading a shader file -/

/-- C7, the claim fails: a file of four bytes whose read reports success but delivers
two bytes is a truncated read, yet `ReadDataFromFile` returns with `*size = 4` and a
buffer that differs from the contents of the file. -/
theorem truncated_read_counterexample :
    File.WF ⟨true, true, 4, [1, 2, 3, 4], true, 2⟩ ∧
    truncated ⟨true, true, 4, [1, 2, 3, 4], true, 2⟩ ∧
    ReadDataFromFile ⟨true, true, 4, [1, 2, 3, 4], true, 2⟩ (fun _ => 0) =
      Except.ok ([1, 2, 0, 0], 4) ∧
    [1, 2, 0, 0] ≠ (⟨true, true, 4, [1, 2, 3, 4], true, 2⟩ : File).contents := by
  refine ⟨?_, ?_, ?_, ?_⟩
  · unfold File.WF UINT64_MOD
    decide
  · unfold truncated
    decide
  · rfl
  · decide

/-- C7 as amended: `ReadDataFromFile` throws exactly when the file is missing, its
metadata cannot be queried, its size does not fit 32 bits, or the read call reports
failure; when it returns, `*size` is the size of the file, `*data` has that many bytes,
the bytes the read delivered are the leading bytes of the file, and `*data` is the
whole contents when the read was not truncated. -/
theorem read_data_from_file (f : File) (heap : Nat → Nat) (hwf : f.WF) :
    (ReadDataFromFile f heap = Except.error () ↔
      (f.exist = false ∨ f.infoOk = false ∨ UINT_MOD ≤ f.EndOfFile ∨ f.readOk = false)) ∧
    (∀ data size, ReadDataFromFile f heap = Except.ok (data, size) →
      size = f.EndOfFile ∧ data.length = size ∧
      data.take f.delivered = f.contents.take f.delivered ∧
      (¬ truncated f → data = f.contents)) := by
  obtain ⟨h64, hlen, hdel⟩ := hwf
  obtain ⟨ex, io, E, cs, rok, del⟩ := f
  simp only at h64 hlen hdel ⊢
  have h64b : E < 2 ^ 64 := h64
  have hhigh : E / UINT_MOD % UINT_MOD ≠ 0 ↔ UINT_MOD ≤ E := by
    unfold UINT_MOD
    omega
  by_cases hbig : UINT_MOD ≤ E
  · have hh := hhigh.mpr hbig
    constructor
    · cases ex <;> cases io <;> simp [ReadDataFromFile, hh, hbig]
    · intro data size h
      cases ex <;> cases io <;> simp [ReadDataFromFile, hh] at h
  · have hh : ¬ (E / UINT_MOD % UINT_MOD ≠ 0) := fun h => hbig (hhigh.mp h)
    have hlow : E % UINT_MOD = E := Nat.mod_eq_of_lt (by omega)
    constructor
    · cases ex <;> cases io <;> cases rok <;>
        simp [ReadDataFromFile, ReadFile, hh, hbig]
    · intro data size h
      cases ex <;> cases io <;> cases rok <;>
        simp [ReadDataFromFile, ReadFile, hh] at h
      obtain ⟨hd, hs⟩ := h
      rw [hlow] at hd hs
      have hmin : min del E = del := Nat.min_eq_left hdel
      rw [hmin] at hd
      have hbl : (cs.take del).length = del := by
        rw [List.length_take]
        omega
      have hml : ((List.range E).map heap).length = E := by simp
      have hpk := peek_poke ((List.range E).map heap) 0
        (cs.take del) (by omega)
      have hpl := poke_length ((List.range E).map heap) 0
        (cs.take del) (by omega)
      rw [hd] at hpk hpl
      rw [hbl] at hpk
      refine ⟨hs.symm, ?_, ?_, ?_⟩
      · rw [hpl, hml, hs]
      · simpa [peek] using hpk
      · intro hnt
        have hde : del = E := by
          simp only [truncated] at hnt
          omega
        have : data.take del = data := by
          apply List.take_of_length_le
          rw [hpl, hml]
          omega
        have hp2 : data.take del = cs.take del := by
          simpa [peek] using hpk
        rw [this] at hp2
        rw [hp2]
        apply List.take_of_length_le
        omega

theorem read_data_from_file_witness :
    ReadDataFromFile ⟨true, true, 4, [1, 2, 3, 4], true, 4⟩ (fun _ => 0) =
      Except.ok ([1, 2, 3, 4], 4) ∧
    (4 = (⟨true, true, 4, [1, 2, 3, 4], true, 4⟩ : File).EndOfFile ∧
     [1, 2, 3, 4].length = 4 ∧
     [1, 2, 3, 4].take (⟨true, true, 4, [1, 2, 3, 4], true, 4⟩ : File).delivered =
       (⟨true, true, 4, [1, 2, 3, 4], true, 4⟩ : File).contents.take
         (⟨true, true, 4, [1, 2, 3, 4], true, 4⟩ : File).delivered ∧
     (¬ truncated ⟨true, true, 4, [1, 2, 3, 4], true, 4⟩ →
       [1, 2, 3, 4] = (⟨true, true, 4, [1, 2, 3, 4], true, 4⟩ : File).contents)) :=
  ⟨rfl, (read_data_from_file ⟨true, true, 4, [1, 2, 3, 4], true, 4⟩ (fun _ => 0)
    (by unfold File.WF UINT64_MOD; decide)).2 [1, 2, 3, 4] 4 rfl⟩

/-! ## C5 and C10: what `Draw` writes -/

theorem peek_mid (a b c : List Nat) (off n : Nat) (ha : a.length = off) (hb : b.length = n) :
    peek (a ++ (b ++ c)) off n = b := by
  unfold peek
  rw [← ha, List.drop_left, ← hb, List.take_left]

theorem Draw_constants_eq (obj mvp : List Nat) (hobj : obj.length = 256)
    (hmvp : mvp.length = 64) :
    Draw_constants obj mvp =
      mvp ++ ((le32 230 ++ le32 130 ++ le32 0 ++ le32 0) ++
        (le32 256 ++ (le32 1024 ++ obj.drop 88))) := by
  have l4 : ∀ v, (le32 v).length = 4 := fun _ => rfl
  unfold Draw_constants
  rw [offMVP_eq, offCounts_eq, offNumMeshes_eq, offNumMaterials_eq]
  have s1 : poke (poke obj 0 mvp) (64 + 4 * 0) (le32 230) = poke obj 0 (mvp ++ le32 230) := by
    have := poke_poke_adjacent obj 0 mvp (le32 230) (by omega)
    rw [hmvp] at this
    simpa using this
  have s2 : poke (poke obj 0 (mvp ++ le32 230)) (64 + 4 * 1) (le32 130) =
      poke obj 0 (mvp ++ le32 230 ++ le32 130) := by
    have := poke_poke_adjacent obj 0 (mvp ++ le32 230) (le32 130)
      (by rw [List.length_append, hmvp, l4]; omega)
    rw [List.length_append, hmvp, l4] at this
    simpa using this
  have s3 : poke (poke obj 0 (mvp ++ le32 230 ++ le32 130)) (64 + 4 * 2) (le32 0) =
      poke obj 0 (mvp ++ le32 230 ++ le32 130 ++ le32 0) := by
    have := poke_poke_adjacent obj 0 (mvp ++ le32 230 ++ le32 130) (le32 0)
      (by simp only [List.length_append, hmvp, l4]; omega)
    simp only [List.length_append, hmvp, l4] at this
    simpa using this
  have s4 : poke (poke obj 0 (mvp ++ le32 230 ++ le32 130 ++ le32 0)) (64 + 4 * 3) (le32 0) =
      poke obj 0 (mvp ++ le32 230 ++ le32 130 ++ le32 0 ++ le32 0) := by
    have := poke_poke_adjacent obj 0 (mvp ++ le32 230 ++ le32 130 ++ le32 0) (le32 0)
      (by simp only [List.length_append, hmvp, l4]; omega)
    simp only [List.length_append, hmvp, l4] at this
    simpa using this
  have s5 : poke (poke obj 0 (mvp ++ le32 230 ++ le32 130 ++ le32 0 ++ le32 0)) 80 (le32 256) =
      poke obj 0 (mvp ++ le32 230 ++ le32 130 ++ le32 0 ++ le32 0 ++ le32 256) := by
    have := poke_poke_adjacent obj 0 (mvp ++ le32 230 ++ le32 130 ++ le32 0 ++ le32 0)
      (le32 256) (by simp only [List.length_append, hmvp, l4]; omega)
    simp only [List.length_append, hmvp, l4] at this
    simpa using this
  have s6 : poke (poke obj 0 (mvp ++ le32 230 ++ le32 130 ++ le32 0 ++ le32 0 ++ le32 256)) 84
      (le32 1024) =
      poke obj 0 (mvp ++ le32 230 ++ le32 130 ++ le32 0 ++ le32 0 ++ le32 256 ++ le32 1024) := by
    have := poke_poke_adjacent obj 0
      (mvp ++ le32 230 ++ le32 130 ++ le32 0 ++ le32 0 ++ le32 256)
      (le32 1024) (by simp only [List.length_append, hmvp, l4]; omega)
    simp only [List.length_append, hmvp, l4] at this
    simpa using this
  simp only [s1, s2, s3, s4, s5, s6]
  unfold poke
  simp only [List.length_append, hmvp, l4, List.take_zero, List.nil_append, List.append_assoc]


theorem Draw_constants_length (obj mvp : List Nat) (hobj : obj.length = 256)
    (hmvp : mvp.length = 64) : (Draw_constants obj mvp).length = 256 := by
  rw [Draw_constants_eq obj mvp hobj hmvp]
  simp [le32, hmvp, hobj]

/-- C5: for a `Draw` that starts with `frameIndex = i < frameCount`, the
`sizeof(SceneConstantBuffer)` bytes of the mapped buffer from byte
`i * sizeof(SceneConstantBuffer)` are afterwards the bytes of `constantBufferData`; in
that structure the stored matrix fills bytes 0..63, `Counts = [230, 130, 0, 0]` bytes
64..79, `NumMeshes = 256` bytes 80..83 and `NumMaterials = 1024` bytes 84..87, as 32-bit
little-endian values, and the structure is 256 bytes, a multiple of its alignment. -/
theorem constants_written_to_slot (r : Render) (e : DrawEnv)
    (hN : r.frameCount < UINT_MOD) (hi : r.frameIndex < r.frameCount)
    (hcbv : r.cbv.length = constantBufferSize r.frameCount)
    (hdata : r.constantBufferData.length = sizeofSceneConstantBuffer)
    (hmvp : e.mvp.length = 64) :
    peek (Draw r e).cbv (r.frameIndex * sizeofSceneConstantBuffer) sizeofSceneConstantBuffer =
      (Draw r e).constantBufferData ∧
    (Draw r e).constantBufferData.length = sizeofSceneConstantBuffer ∧
    peek (Draw r e).constantBufferData 0 64 = e.mvp ∧
    peek (Draw r e).constantBufferData 64 16 = le32 230 ++ le32 130 ++ le32 0 ++ le32 0 ∧
    peek (Draw r e).constantBufferData 80 4 = le32 256 ∧
    peek (Draw r e).constantBufferData 84 4 = le32 1024 ∧
    sizeofSceneConstantBuffer = 256 ∧
    sizeofSceneConstantBuffer % SceneConstantBuffer_align = 0 := by
  have hN2 : r.frameCount < 2 ^ 32 := hN
  rw [sizeofSceneConstantBuffer_eq] at hdata
  have hoff : cbOffset r.frameIndex = 256 * r.frameIndex :=
    cbOffset_eq _ (by unfold UINT_MOD; omega)
  rw [constantBufferSize_eq _ hN] at hcbv
  have hd : (Draw r e).constantBufferData = Draw_constants r.constantBufferData e.mvp := rfl
  have hc : (Draw r e).cbv = memcpy r.cbv (cbOffset r.frameIndex)
      (Draw_constants r.constantBufferData e.mvp) sizeofSceneConstantBuffer := rfl
  have hlen := Draw_constants_length r.constantBufferData e.mvp hdata hmvp
  have heq := Draw_constants_eq r.constantBufferData e.mvp hdata hmvp
  have l4 : ∀ v, (le32 v).length = 4 := fun _ => rfl
  refine ⟨?_, ?_, ?_, ?_, ?_, ?_, sizeofSceneConstantBuffer_eq, by decide⟩
  · rw [hc, hd, sizeofSceneConstantBuffer_eq, hoff, memcpy]
    have htk : (Draw_constants r.constantBufferData e.mvp).take 256 =
        Draw_constants r.constantBufferData e.mvp :=
      List.take_of_length_le (by omega)
    rw [htk]
    have := peek_poke r.cbv (256 * r.frameIndex) (Draw_constants r.constantBufferData e.mvp)
      (by omega)
    rw [hlen] at this
    rw [Nat.mul_comm r.frameIndex 256]
    exact this
  · rw [hd, hlen, sizeofSceneConstantBuffer_eq]
  · rw [hd, heq]
    have := peek_mid [] e.mvp ((le32 230 ++ le32 130 ++ le32 0 ++ le32 0) ++
        (le32 256 ++ (le32 1024 ++ r.constantBufferData.drop 88))) 0 64 rfl hmvp
    simpa using this
  · rw [hd, heq]
    exact peek_mid e.mvp (le32 230 ++ le32 130 ++ le32 0 ++ le32 0) _ 64 16 hmvp rfl
  · rw [hd, heq]
    have := peek_mid (e.mvp ++ (le32 230 ++ le32 130 ++ le32 0 ++ le32 0)) (le32 256)
      (le32 1024 ++ r.constantBufferData.drop 88) 80 4
      (by simp only [List.length_append, hmvp, l4]) rfl
    simpa only [List.append_assoc] using this
  · rw [hd, heq]
    have := peek_mid (e.mvp ++ (le32 230 ++ le32 130 ++ le32 0 ++ le32 0) ++ le32 256)
      (le32 1024) (r.constantBufferData.drop 88) 84 4
      (by simp only [List.length_append, hmvp, l4]) rfl
    simpa only [List.append_assoc] using this

theorem constants_written_to_slot_witness :
    (Initialize 2 exampleInit).frameIndex < (Initialize 2 exampleInit).frameCount ∧
    peek (Draw (Initialize 2 exampleInit) (keepUpEnv 0)).constantBufferData 80 4 = le32 256 ∧
    peek (Draw (Initialize 2 exampleInit) (keepUpEnv 0)).cbv
        ((Initialize 2 exampleInit).frameIndex * sizeofSceneConstantBuffer)
        sizeofSceneConstantBuffer =
      (Draw (Initialize 2 exampleInit) (keepUpEnv 0)).constantBufferData :=
  ⟨by decide,
    (constants_written_to_slot (Initialize 2 exampleInit) (keepUpEnv 0) (by decide) (by decide)
      (by simp [Initialize, CreateRender]) (by simp [Initialize, CreateRender])
      (by simp [keepUpEnv])).2.2.2.2.1,
    (constants_written_to_slot (Initialize 2 exampleInit) (keepUpEnv 0) (by decide) (by decide)
      (by simp [Initialize, CreateRender]) (by simp [Initialize, CreateRender])
      (by simp [keepUpEnv])).1⟩

/-- C10: for a `Draw` that starts with `frameIndex = i < frameCount` and after which the
swap chain reports `j < frameCount`: the mapped buffer keeps its size and every byte
outside `[i * sizeof(SceneConstantBuffer), (i + 1) * sizeof(SceneConstantBuffer))` is
unchanged; `fenceValues` keeps its size, every entry other than `fenceValues[j]` is
unchanged, and `fenceValues[j]` becomes the signalled value plus one as a `UINT`. -/
theorem draw_writes_confined (r : Render) (e : DrawEnv)
    (hN : r.frameCount < UINT_MOD) (hi : r.frameIndex < r.frameCount)
    (hj : e.next < r.frameCount)
    (hcbv : r.cbv.length = constantBufferSize r.frameCount)
    (hfv : r.fenceValues.length = r.frameCount)
    (hdata : r.constantBufferData.length = sizeofSceneConstantBuffer)
    (hmvp : e.mvp.length = 64) :
    (Draw r e).cbv.length = r.cbv.length ∧
    (∀ p, (p < r.frameIndex * sizeofSceneConstantBuffer ∨
           (r.frameIndex + 1) * sizeofSceneConstantBuffer ≤ p) →
      (Draw r e).cbv[p]? = r.cbv[p]?) ∧
    (Draw r e).fenceValues.length = r.fenceValues.length ∧
    (∀ k, k ≠ e.next → (Draw r e).fenceValues[k]? = r.fenceValues[k]?) ∧
    (Draw r e).fenceValues[e.next]? =
      some ((r.fenceValues.getD r.frameIndex 0 + 1) % UINT64_MOD % UINT_MOD) := by
  have hN2 : r.frameCount < 2 ^ 32 := hN
  rw [sizeofSceneConstantBuffer_eq] at hdata
  have hoff : cbOffset r.frameIndex = 256 * r.frameIndex :=
    cbOffset_eq _ (by unfold UINT_MOD; omega)
  rw [constantBufferSize_eq _ hN] at hcbv
  have hc : (Draw r e).cbv = poke r.cbv (256 * r.frameIndex)
      ((Draw_constants r.constantBufferData e.mvp).take 256) := by
    show memcpy r.cbv (cbOffset r.frameIndex) _ sizeofSceneConstantBuffer = _
    rw [hoff, sizeofSceneConstantBuffer_eq, memcpy]
  have hf : (Draw r e).fenceValues = r.fenceValues.set e.next
      ((r.fenceValues.getD r.frameIndex 0 + 1) % UINT64_MOD % UINT_MOD) := rfl
  have hlen := Draw_constants_length r.constantBufferData e.mvp hdata hmvp
  have htl : ((Draw_constants r.constantBufferData e.mvp).take 256).length = 256 := by
    rw [List.length_take, hlen]
    rfl
  refine ⟨?_, ?_, ?_, ?_, ?_⟩
  · rw [hc]
    exact poke_length _ _ _ (by rw [htl]; omega)
  · intro p hp
    rw [hc, sizeofSceneConstantBuffer_eq] at *
    rcases hp with hp | hp
    · exact poke_getElem?_lt _ _ _ _ (by omega) (by omega)
    · exact poke_getElem?_ge _ _ _ _ (by rw [htl]; omega) (by omega)
  · rw [hf, List.length_set]
  · intro k hk
    rw [hf]
    exact List.getElem?_set_ne (fun h => hk h.symm)
  · rw [hf, List.getElem?_set_self (by omega)]

theorem draw_writes_confined_witness :
    (keepUpEnv 0).next < (Initialize 2 exampleInit).frameCount ∧
    (Draw (Initialize 2 exampleInit) (keepUpEnv 0)).fenceValues[0]? =
      (Initialize 2 exampleInit).fenceValues[0]? ∧
    (Draw (Initialize 2 exampleInit) (keepUpEnv 0)).cbv[256]? =
      (Initialize 2 exampleInit).cbv[256]? :=
  ⟨by decide,
    (draw_writes_confined (Initialize 2 exampleInit) (keepUpEnv 0) (by decide) (by decide)
      (by decide) (by simp [Initialize, CreateRender]) (by simp [Initialize, CreateRender])
      (by simp [Initialize, CreateRender]) (by simp [keepUpEnv])).2.2.2.1 0 (by decide),
    (draw_writes_confined (Initialize 2 exampleInit) (keepUpEnv 0) (by decide) (by decide)
      (by decide) (by simp [Initialize, CreateRender]) (by simp [Initialize, CreateRender])
      (by simp [Initialize, CreateRender]) (by simp [keepUpEnv])).2.1 256
      (Or.inr (by decide))⟩

/-! ## The fence protocol: runs of `Draw` -/

theorem runDraws_cons (r : Render) (e : DrawEnv) (es : List DrawEnv) :
    runDraws r (e :: es) = runDraws (Draw r e) es := rfl

theorem Draw_frameCount (r : Render) (e : DrawEnv) : (Draw r e).frameCount = r.frameCount := rfl

theorem Draw_frameIndex (r : Render) (e : DrawEnv) : (Draw r e).frameIndex = e.next := rfl

theorem Draw_submits (r : Render) (e : DrawEnv) :
    (Draw r e).submits = r.submits ++ [(r.frameIndex, r.fenceValues.getD r.frameIndex 0)] := rfl

theorem Draw_signals (r : Render) (e : DrawEnv) :
    (Draw r e).signals = r.signals ++ [r.fenceValues.getD r.frameIndex 0] := by
  simp [Render.signals, Draw_submits]

theorem Draw_fenceValues (r : Render) (e : DrawEnv) :
    (Draw r e).fenceValues = r.fenceValues.set e.next
      ((r.fenceValues.getD r.frameIndex 0 + 1) % UINT64_MOD % UINT_MOD) := rfl

theorem Draw_completed (r : Render) (e : DrawEnv) :
    (Draw r e).completed =
      if e.seen < r.fenceValues.getD e.next 0 then e.woken else e.seen := rfl

theorem Draw_target (r : Render) (e : DrawEnv) :
    (Draw r e).target = max r.target (r.fenceValues.getD r.frameIndex 0) := by
  simp [Render.target, Draw_signals, List.foldl_append]

theorem getD_set_self (l : List Nat) (j v : Nat) (h : j < l.length) :
    (l.set j v).getD j 0 = v := by
  simp [List.getD_eq_getElem?_getD, List.getElem?_set_self h]

theorem getD_set_ne (l : List Nat) (j x v : Nat) (h : x ≠ j) :
    (l.set j v).getD x 0 = l.getD x 0 := by
  simp [List.getD_eq_getElem?_getD, List.getElem?_set_ne (fun h2 => h h2.symm)]

/-- The counting invariant: after `n` draws the current slot remembers `n + 1` as a
`UINT`, and the values signalled so far are `1, 2, .., n` as `UINT`s. -/
theorem counting_step (r : Render) (e : DrawEnv) (n : Nat)
    (hlen : r.fenceValues.length = r.frameCount) (hj : e.next < r.frameCount)
    (hcur : r.fenceValues.getD r.frameIndex 0 = (n + 1) % UINT_MOD)
    (hsig : r.signals = (List.range n).map (fun k => (k + 1) % UINT_MOD)) :
    (Draw r e).fenceValues.length = (Draw r e).frameCount ∧
    (Draw r e).fenceValues.getD (Draw r e).frameIndex 0 = (n + 1 + 1) % UINT_MOD ∧
    (Draw r e).signals = (List.range (n + 1)).map (fun k => (k + 1) % UINT_MOD) := by
  refine ⟨?_, ?_, ?_⟩
  · rw [Draw_fenceValues, List.length_set, Draw_frameCount, hlen]
  · rw [Draw_frameIndex, Draw_fenceValues, getD_set_self _ _ _ (by omega), hcur]
    unfold UINT64_MOD UINT_MOD
    omega
  · rw [Draw_signals, hsig, hcur, List.range_succ, List.map_append]
    rfl

theorem counting_run : ∀ (envs : List DrawEnv) (r : Render) (n : Nat),
    r.fenceValues.length = r.frameCount → InRange r.frameCount envs →
    r.fenceValues.getD r.frameIndex 0 = (n + 1) % UINT_MOD →
    r.signals = (List.range n).map (fun k => (k + 1) % UINT_MOD) →
    (runDraws r envs).signals =
      (List.range (n + envs.length)).map (fun k => (k + 1) % UINT_MOD) := by
  intro envs
  induction envs with
  | nil => intro r n _ _ _ hsig; simpa [runDraws] using hsig
  | cons e es ih =>
    intro r n hlen hr hcur hsig
    have hj : e.next < r.frameCount := hr e (List.mem_cons_self _ _)
    obtain ⟨h1, h2, h3⟩ := counting_step r e n hlen hj hcur hsig
    have hr2 : InRange (Draw r e).frameCount es := fun x hx => hr x (List.mem_cons_of_mem _ hx)
    have := ih (Draw r e) (n + 1) h1 hr2 h2 h3
    rw [runDraws_cons, this, List.length_cons]
    congr 2
    omega

theorem Initialize_fenceValues_length (N : Nat) (ienv : InitEnv) :
    (Initialize N ienv).fenceValues.length = (Initialize N ienv).frameCount := by
  simp [Initialize, CreateRender]

theorem Initialize_current (N : Nat) (ienv : InitEnv) (h : ienv.backBuffer < N) :
    (Initialize N ienv).fenceValues.getD (Initialize N ienv).frameIndex 0 = 1 := by
  show ((List.replicate N 0).set ienv.backBuffer _).getD ienv.backBuffer 0 = 1
  rw [getD_set_self _ _ _ (by simpa using h)]
  simp [CreateRender, List.getD_eq_getElem?_getD, UINT_MOD]

/-- The `k`-th value passed to `Signal` (counted from 0) is `k + 1` as a `UINT`. -/
theorem signals_closed_form (N : Nat) (ienv : InitEnv) (envs : List DrawEnv)
    (h0 : ienv.backBuffer < N) (hr : InRange N envs) :
    (runDraws (Initialize N ienv) envs).signals =
      (List.range envs.length).map (fun k => (k + 1) % UINT_MOD) := by
  have := counting_run envs (Initialize N ienv) 0 (Initialize_fenceValues_length N ienv) hr
    (by rw [Initialize_current N ienv h0]; rfl) rfl
  simpa using this

/-! ## C2: the values passed to `Signal` -/

theorem wrapRun_length : wrapRun.length = 2 ^ 32 := by
  simp [wrapRun]

theorem wrapRun_inRange : InRange 3 wrapRun := by
  intro e he
  simp only [wrapRun, List.mem_map] at he
  obtain ⟨k, _, hk⟩ := he
  subst hk
  exact Nat.mod_lt _ (by decide)

/-- C2, on the code: in the run of `2^32` draws on three rotating buffers, the
`(2^32 - 1)`-th `Draw` passes `4294967295` to `Signal` and the `2^32`-th `Draw` passes `0`:
the value stored back through the `UINT` vector has wrapped, and the signalled value is
smaller than the previous one. -/
theorem signal_value_wraps :
    (runDraws (Initialize 3 exampleInit) wrapRun).signals[2 ^ 32 - 2]? = some 4294967295 ∧
    (runDraws (Initialize 3 exampleInit) wrapRun).signals[2 ^ 32 - 1]? = some 0 ∧
    ¬ List.Pairwise (fun a b => a < b) (runDraws (Initialize 3 exampleInit) wrapRun).signals := by
  have hs := signals_closed_form 3 exampleInit wrapRun (by decide) wrapRun_inRange
  rw [wrapRun_length] at hs
  have h1 : (runDraws (Initialize 3 exampleInit) wrapRun).signals[2 ^ 32 - 2]? =
      some 4294967295 := by
    rw [hs, List.getElem?_map, List.getElem?_range (by norm_num)]
    simp [UINT_MOD]
  have h2 : (runDraws (Initialize 3 exampleInit) wrapRun).signals[2 ^ 32 - 1]? = some 0 := by
    rw [hs, List.getElem?_map, List.getElem?_range (by norm_num)]
    simp [UINT_MOD]
  refine ⟨h1, h2, ?_⟩
  intro hp
  rw [List.pairwise_iff_getElem] at hp
  have hl : (runDraws (Initialize 3 exampleInit) wrapRun).signals.length = 2 ^ 32 := by
    rw [hs]
    simp
  have ha : 2 ^ 32 - 2 < (runDraws (Initialize 3 exampleInit) wrapRun).signals.length := by
    rw [hl]
    norm_num
  have hb : 2 ^ 32 - 1 < (runDraws (Initialize 3 exampleInit) wrapRun).signals.length := by
    rw [hl]
    norm_num
  have hlt := hp (2 ^ 32 - 2) (2 ^ 32 - 1) ha hb (by norm_num)
  rw [List.getElem?_eq_getElem ha] at h1
  rw [List.getElem?_eq_getElem hb] at h2
  rw [Option.some.inj h1, Option.some.inj h2] at hlt
  omega

/-! ## C3: remembered values and the target of the fence -/

/-- C3, the claim fails: right after `Initialize` the current slot remembers 1 while
nothing has been signalled, and after one `Draw` the new current slot remembers 2 while
the greatest value signalled is 1. -/
theorem remembered_value_counterexample :
    (Initialize 3 exampleInit).fenceValues[0]? = some 1 ∧
    (Initialize 3 exampleInit).target = 0 ∧
    (runDraws (Initialize 3 exampleInit) [keepUpEnv 0]).fenceValues[1]? = some 2 ∧
    (runDraws (Initialize 3 exampleInit) [keepUpEnv 0]).target = 1 ∧
    ¬ (∀ i, i < 3 → (Initialize 3 exampleInit).fenceValues.getD i 0 ≤
        (Initialize 3 exampleInit).target) := by
  refine ⟨by decide, by decide, by decide, by decide, ?_⟩
  intro h
  exact absurd (h 0 (by decide)) (by decide)

theorem remembered_step (r : Render) (e : DrawEnv)
    (h : ∀ i, (i ≠ r.frameIndex → r.fenceValues.getD i 0 ≤ r.target) ∧
      r.fenceValues.getD i 0 ≤ r.target + 1) :
    ∀ i, (i ≠ (Draw r e).frameIndex → (Draw r e).fenceValues.getD i 0 ≤ (Draw r e).target) ∧
      (Draw r e).fenceValues.getD i 0 ≤ (Draw r e).target + 1 := by
  intro i
  rw [Draw_frameIndex, Draw_target, Draw_fenceValues]
  have hmod : (r.fenceValues.getD r.frameIndex 0 + 1) % UINT64_MOD % UINT_MOD ≤
      r.fenceValues.getD r.frameIndex 0 + 1 :=
    le_trans (Nat.mod_le _ _) (Nat.mod_le _ _)
  by_cases hij : i = e.next
  · subst hij
    refine ⟨fun hne => absurd rfl hne, ?_⟩
    by_cases hl : e.next < r.fenceValues.length
    · rw [getD_set_self _ _ _ hl]
      omega
    · rw [List.set_eq_of_length_le (by omega)]
      have := (h e.next).2
      omega
  · rw [getD_set_ne _ _ _ _ hij]
    have h1 := (h i).1
    have h2 := (h i).2
    by_cases hc : i = r.frameIndex
    · subst hc
      constructor
      · intro _
        omega
      · omega
    · have := h1 hc
      constructor
      · intro _
        omega
      · omega

theorem remembered_run : ∀ (envs : List DrawEnv) (r : Render),
    (∀ i, (i ≠ r.frameIndex → r.fenceValues.getD i 0 ≤ r.target) ∧
      r.fenceValues.getD i 0 ≤ r.target + 1) →
    ∀ i, (i ≠ (runDraws r envs).frameIndex →
        (runDraws r envs).fenceValues.getD i 0 ≤ (runDraws r envs).target) ∧
      (runDraws r envs).fenceValues.getD i 0 ≤ (runDraws r envs).target + 1 := by
  intro envs
  induction envs with
  | nil => intro r h; exact h
  | cons e es ih =>
    intro r h
    rw [runDraws_cons]
    exact ih (Draw r e) (remembered_step r e h)

theorem Initialize_remembered (N : Nat) (ienv : InitEnv) :
    ∀ i, (i ≠ (Initialize N ienv).frameIndex →
        (Initialize N ienv).fenceValues.getD i 0 ≤ (Initialize N ienv).target) ∧
      (Initialize N ienv).fenceValues.getD i 0 ≤ (Initialize N ienv).target + 1 := by
  intro i
  have ht : (Initialize N ienv).target = 0 := rfl
  have hfi : (Initialize N ienv).frameIndex = ienv.backBuffer := rfl
  have hfv : (Initialize N ienv).fenceValues = (List.replicate N 0).set ienv.backBuffer
      (((List.replicate N 0).getD ienv.backBuffer 0 + 1) % UINT_MOD) := rfl
  have hz : ∀ x, (List.replicate N 0).getD x 0 = 0 := by
    intro x
    simp only [List.getD_eq_getElem?_getD, List.getElem?_replicate]
    split <;> rfl
  rw [ht, hfi, hfv, hz]
  constructor
  · intro hne
    rw [getD_set_ne _ _ _ _ hne, hz]
  · by_cases hij : i = ienv.backBuffer
    · rw [hij]
      by_cases hl : ienv.backBuffer < (List.replicate N 0).length
      · rw [getD_set_self _ _ _ hl]
        simp [UINT_MOD]
      · rw [List.set_eq_of_length_le (by omega), hz]
        omega
    · rw [getD_set_ne _ _ _ _ hij, hz]
      omega

theorem runDraws_fenceValues_length : ∀ (envs : List DrawEnv) (r : Render),
    (runDraws r envs).fenceValues.length = r.fenceValues.length := by
  intro envs
  induction envs with
  | nil => intro r; rfl
  | cons e es ih =>
    intro r
    rw [runDraws_cons, ih, Draw_fenceValues, List.length_set]

/-- C3 as amended: in every state reached by `Initialize` followed by any number of
`Draw` calls, every slot other than the current one remembers a value at most the
greatest value the queue has been asked to signal (0 before any `Signal`), and the
current slot remembers at most that value plus one; `fenceValues` has an entry for every
slot `i < frameCount`. -/
theorem remembered_value_bound (N : Nat) (ienv : InitEnv) (envs : List DrawEnv) (i : Nat)
    (hi : i < N) :
    i < (runDraws (Initialize N ienv) envs).fenceValues.length ∧
    (i ≠ (runDraws (Initialize N ienv) envs).frameIndex →
      (runDraws (Initialize N ienv) envs).fenceValues.getD i 0 ≤
        (runDraws (Initialize N ienv) envs).target) ∧
    (runDraws (Initialize N ienv) envs).fenceValues.getD i 0 ≤
      (runDraws (Initialize N ienv) envs).target + 1 :=
  ⟨by rw [runDraws_fenceValues_length, Initialize_fenceValues_length]; exact hi,
    remembered_run envs (Initialize N ienv) (Initialize_remembered N ienv) i⟩

theorem remembered_value_bound_witness :
    0 < (runDraws (Initialize 2 exampleInit) exampleRun).fenceValues.length ∧
    (0 ≠ (runDraws (Initialize 2 exampleInit) exampleRun).frameIndex →
      (runDraws (Initialize 2 exampleInit) exampleRun).fenceValues.getD 0 0 ≤
        (runDraws (Initialize 2 exampleInit) exampleRun).target) ∧
    (runDraws (Initialize 2 exampleInit) exampleRun).fenceValues.getD 0 0 ≤
      (runDraws (Initialize 2 exampleInit) exampleRun).target + 1 :=
  remembered_value_bound 2 exampleInit exampleRun 0 (by decide)

/-! ## C1: no premature reuse -/

theorem lastSubmit_append_single (submits : List (Nat × Nat)) (i v x : Nat) :
    lastSubmit (submits ++ [(i, v)]) x = if i = x then some v else lastSubmit submits x := by
  unfold lastSubmit
  rw [List.reverse_append, List.reverse_singleton, List.singleton_append, List.find?_cons]
  by_cases h : i = x
  · simp [h]
  · have hb : ((i, v).1 == x) = false := by simpa using h
    rw [hb]
    simp [h]

theorem lastSubmit_mem (submits : List (Nat × Nat)) (x v : Nat)
    (h : lastSubmit submits x = some v) : v ∈ submits.map Prod.snd := by
  unfold lastSubmit at h
  rw [Option.map_eq_some'] at h
  obtain ⟨p, hp, hv⟩ := h
  have hm : p ∈ submits := List.mem_reverse.mp (List.mem_of_find?_eq_some hp)
  exact List.mem_map.mpr ⟨p, hm, hv⟩

theorem SlotsRecorded_Initialize (N : Nat) (ienv : InitEnv) :
    SlotsRecorded (Initialize N ienv) := by
  intro x hx
  left
  refine ⟨rfl, ?_⟩
  have hfi : (Initialize N ienv).frameIndex = ienv.backBuffer := rfl
  have hfv : (Initialize N ienv).fenceValues = (List.replicate N 0).set ienv.backBuffer
      (((List.replicate N 0).getD ienv.backBuffer 0 + 1) % UINT_MOD) := rfl
  rw [hfi] at hx
  rw [hfv, getD_set_ne _ _ _ _ hx]
  simp only [List.getD_eq_getElem?_getD, List.getElem?_replicate]
  split <;> rfl

/-- Before `fenceValues[frameIndex]` is overwritten at line 439, every slot remembers
the value signalled after its most recent submission, the slot just submitted
included. -/
theorem recorded_before_store (r : Render) (e : DrawEnv) (h : SlotsRecorded r) (x : Nat) :
    (lastSubmit (Draw r e).submits x = none ∧ r.fenceValues.getD x 0 = 0) ∨
    lastSubmit (Draw r e).submits x = some (r.fenceValues.getD x 0) := by
  rw [Draw_submits, lastSubmit_append_single]
  by_cases hx : r.frameIndex = x
  · right
    rw [if_pos hx, hx]
  · rw [if_neg hx]
    exact h x (fun h2 => hx h2.symm)

theorem SlotsRecorded_Draw (r : Render) (e : DrawEnv) (h : SlotsRecorded r) :
    SlotsRecorded (Draw r e) := by
  intro x hx
  rw [Draw_frameIndex] at hx
  rw [Draw_fenceValues, getD_set_ne _ _ _ _ hx]
  exact recorded_before_store r e h x

theorem ReuseSafe_Draw (r : Render) (e : DrawEnv) (h : SlotsRecorded r) (he : envOk r e) :
    ReuseSafe (Draw r e) := by
  have hc : r.fenceValues.getD e.next 0 ≤ (Draw r e).completed := by
    rw [Draw_completed]
    split
    · next hw => exact (he.2.2 hw).2
    · next hw => omega
  unfold ReuseSafe
  rw [Draw_frameIndex]
  rcases recorded_before_store r e h e.next with h1 | h1
  · exact Or.inl h1.1
  · exact Or.inr ⟨_, h1, hc⟩

theorem envOk_exists (r : Render) (h : SlotsRecorded r) (j : Nat) (hj : j < r.frameCount) :
    ∃ e : DrawEnv, e.next = j ∧ envOk r e := by
  refine ⟨⟨List.replicate 64 0, j, r.fenceValues.getD j 0, r.fenceValues.getD j 0⟩, rfl, hj,
    ?_, ?_⟩
  · show r.fenceValues.getD j 0 ∈ 0 :: (r.signals ++ [r.fenceValues.getD r.frameIndex 0])
    by_cases hx : j = r.frameIndex
    · rw [hx]
      simp
    · rcases h j hx with h1 | h1
      · rw [h1.2]
        simp
      · have := lastSubmit_mem _ _ _ h1
        simp only [List.mem_cons, List.mem_append]
        exact Or.inr (Or.inl this)
  · intro hlt
    exact absurd hlt (lt_irrefl _)

theorem reuse_run : ∀ (envs : List DrawEnv) (r : Render),
    SlotsRecorded r → ReuseSafe r → Admissible r envs →
    ∀ k, k ≤ envs.length →
      SlotsRecorded (runDraws r (envs.take k)) ∧ ReuseSafe (runDraws r (envs.take k)) := by
  intro envs
  induction envs with
  | nil =>
    intro r hs hr _ k _
    simpa [runDraws] using ⟨hs, hr⟩
  | cons e es ih =>
    intro r hs hr hadm k hk
    cases k with
    | zero => simpa [runDraws] using ⟨hs, hr⟩
    | succ k =>
      rw [List.take_succ_cons, runDraws_cons]
      exact ih (Draw r e) (SlotsRecorded_Draw r e hs) (ReuseSafe_Draw r e hs hadm.1) hadm.2 k
        (by simpa using hk)

theorem Admissible_inRange : ∀ (envs : List DrawEnv) (r : Render),
    Admissible r envs → InRange r.frameCount envs := by
  intro envs
  induction envs with
  | nil => intro r _ e he; cases he
  | cons e es ih =>
    intro r hadm x hx
    rcases List.mem_cons.mp hx with h | h
    · rw [h]
      exact hadm.1.1
    · exact ih (Draw r e) hadm.2 x h

theorem runDraws_frameCount : ∀ (envs : List DrawEnv) (r : Render),
    (runDraws r envs).frameCount = r.frameCount := by
  intro envs
  induction envs with
  | nil => intro r; rfl
  | cons e es ih =>
    intro r
    rw [runDraws_cons, ih, Draw_frameCount]

theorem signals_increasing (n : Nat) (hn : n < 2 ^ 32) :
    List.Pairwise (fun a b => a < b) ((List.range n).map (fun k => (k + 1) % UINT_MOD)) := by
  rw [List.pairwise_map]
  refine List.Pairwise.imp_of_mem ?_ (List.pairwise_lt_range n)
  intro a b ha hb hab
  have ha2 := List.mem_range.mp ha
  have hb2 := List.mem_range.mp hb
  unfold UINT_MOD
  omega

/-- C1: in every run of `Initialize` followed by fewer than `2^32 - 1` draws, where
each reported back-buffer index is below `frameCount`, each completed value read is 0
or a value the queue was asked to signal, and a wait returns only once the fence has
reached the awaited value: after every `Draw` of the run the slot that is now current
was never submitted, or the completed value of the fence is at least the value
signalled right after the most recent submission of that slot.  The values signalled
in the run are strictly increasing, so a completed value that large means the GPU has
passed that submission; and for any index the swap chain reports next there are answers
of the fence with which the next `Draw` returns. -/
theorem no_premature_reuse (N : Nat) (ienv : InitEnv) (envs : List DrawEnv)
    (h0 : ienv.backBuffer < N) (hlen : envs.length < 2 ^ 32 - 1)
    (hadm : Admissible (Initialize N ienv) envs) :
    (∀ k, k ≤ envs.length → ReuseSafe (runDraws (Initialize N ienv) (envs.take k))) ∧
    List.Pairwise (fun a b => a < b) (runDraws (Initialize N ienv) envs).signals ∧
    (∀ j, j < N → ∃ e : DrawEnv, e.next = j ∧ envOk (runDraws (Initialize N ienv) envs) e) := by
  have hinit : ReuseSafe (Initialize N ienv) := Or.inl rfl
  have hrun := reuse_run envs (Initialize N ienv) (SlotsRecorded_Initialize N ienv) hinit hadm
  refine ⟨fun k hk => (hrun k hk).2, ?_, ?_⟩
  · rw [signals_closed_form N ienv envs h0 (Admissible_inRange envs _ hadm)]
    exact signals_increasing _ (by omega)
  · intro j hj
    have hs := (hrun envs.length (le_refl _)).1
    rw [List.take_length] at hs
    exact envOk_exists _ hs j (by rw [runDraws_frameCount]; exact hj)

theorem no_premature_reuse_witness :
    Admissible (Initialize 2 exampleInit) exampleRun ∧
    ReuseSafe (runDraws (Initialize 2 exampleInit) (exampleRun.take 2)) :=
  ⟨by decide,
    (no_premature_reuse 2 exampleInit exampleRun (by decide) (by decide) (by decide)).1 2
      (by decide)⟩

/-! ## C9: render-target-view handles -/

theorem Draw_rtvFields (r : Render) (e : DrawEnv) :
    (Draw r e).rtvHeapStart = r.rtvHeapStart ∧
    (Draw r e).rtvDescriptorSize = r.rtvDescriptorSize ∧
    (Draw r e).rtvViews = r.rtvViews := ⟨rfl, rfl, rfl⟩

theorem runDraws_rtvFields : ∀ (envs : List DrawEnv) (r : Render),
    (runDraws r envs).rtvHeapStart = r.rtvHeapStart ∧
    (runDraws r envs).rtvDescriptorSize = r.rtvDescriptorSize ∧
    (runDraws r envs).rtvViews = r.rtvViews := by
  intro envs
  induction envs with
  | nil => intro r; exact ⟨rfl, rfl, rfl⟩
  | cons e es ih =>
    intro r
    rw [runDraws_cons]
    obtain ⟨h1, h2, h3⟩ := ih (Draw r e)
    obtain ⟨g1, g2, g3⟩ := Draw_rtvFields r e
    exact ⟨h1.trans g1, h2.trans g2, h3.trans g3⟩

theorem Draw_rtvHandlesUsed (r : Render) (e : DrawEnv) :
    rtvHandlesUsed (Draw r e).commandList =
      [CD3DX12_CPU_DESCRIPTOR_HANDLE r.rtvHeapStart r.frameIndex r.rtvDescriptorSize,
       CD3DX12_CPU_DESCRIPTOR_HANDLE r.rtvHeapStart r.frameIndex r.rtvDescriptorSize] := rfl

/-- C9: for every `frameCount` `N`, stride `s` (the `rtvDescriptorSize` the device
reports), heap start `base` and slot `n < N`: the handle at which `Initialize` creates
the view of buffer `n`, reached by applying `Offset(1, s)` once per earlier buffer, is
`base + n * s`; the draws leave the views where they are; in any state reached by
`Initialize` and a run of draws in which `frameIndex = n`, the command list `Draw`
records binds and clears exactly that handle and no other; and for `s > 0` the handles
of two different slots differ. -/
theorem rtv_handle_addressing (N : Nat) (ienv : InitEnv) (envs : List DrawEnv) (e : DrawEnv)
    (n : Nat) (hn : n < N) (hcur : (runDraws (Initialize N ienv) envs).frameIndex = n) :
    (Initialize N ienv).rtvViews[n]? = some (ienv.rtvHeapStart + n * ienv.rtvDescriptorSize) ∧
    (runDraws (Initialize N ienv) envs).rtvViews = (Initialize N ienv).rtvViews ∧
    (rtvHandlesUsed (Draw (runDraws (Initialize N ienv) envs) e).commandList).map some =
      [(Initialize N ienv).rtvViews[n]?, (Initialize N ienv).rtvViews[n]?] ∧
    Cmd.OMSetRenderTargets (ienv.rtvHeapStart + n * ienv.rtvDescriptorSize) ∈
      Draw_commands (runDraws (Initialize N ienv) envs) ∧
    Cmd.ClearRenderTargetView (ienv.rtvHeapStart + n * ienv.rtvDescriptorSize) ∈
      Draw_commands (runDraws (Initialize N ienv) envs) ∧
    (∀ m, m < N → m ≠ n → 0 < ienv.rtvDescriptorSize →
      (Initialize N ienv).rtvViews[m]? ≠ (Initialize N ienv).rtvViews[n]?) := by
  have hview : ∀ k, k < N →
      (Initialize N ienv).rtvViews[k]? =
        some (ienv.rtvHeapStart + k * ienv.rtvDescriptorSize) := by
    intro k hk
    rw [Initialize_rtvViews]
    exact Initialize_rtvLoop_getElem? _ N _ k hk
  obtain ⟨hb, hs, hv⟩ := runDraws_rtvFields envs (Initialize N ienv)
  have hb2 : (runDraws (Initialize N ienv) envs).rtvHeapStart = ienv.rtvHeapStart := hb
  have hs2 : (runDraws (Initialize N ienv) envs).rtvDescriptorSize = ienv.rtvDescriptorSize := hs
  have hh : CD3DX12_CPU_DESCRIPTOR_HANDLE (runDraws (Initialize N ienv) envs).rtvHeapStart
      (runDraws (Initialize N ienv) envs).frameIndex
      (runDraws (Initialize N ienv) envs).rtvDescriptorSize =
      ienv.rtvHeapStart + n * ienv.rtvDescriptorSize := by
    rw [hb2, hs2, hcur]
    rfl
  refine ⟨hview n hn, hv, ?_, ?_, ?_, ?_⟩
  · rw [Draw_rtvHandlesUsed, hh, hview n hn]
    rfl
  · rw [← hh]
    simp [Draw_commands]
  · rw [← hh]
    simp [Draw_commands]
  · intro m hm hmn hpos
    rw [hview n hn, hview m hm]
    intro h
    have h2 : ienv.rtvHeapStart + m * ienv.rtvDescriptorSize =
        ienv.rtvHeapStart + n * ienv.rtvDescriptorSize := Option.some.inj h
    have h3 : m * ienv.rtvDescriptorSize = n * ienv.rtvDescriptorSize := by omega
    exact hmn (Nat.eq_of_mul_eq_mul_right hpos h3)

theorem rtv_handle_addressing_witness :
    (runDraws (Initialize 3 exampleInit) [keepUpEnv 0]).frameIndex = 1 ∧
    (Initialize 3 exampleInit).rtvViews[1]? = some (4096 + 1 * 32) ∧
    (rtvHandlesUsed
        (Draw (runDraws (Initialize 3 exampleInit) [keepUpEnv 0]) (keepUpEnv 1)).commandList).map
        some =
      [(Initialize 3 exampleInit).rtvViews[1]?, (Initialize 3 exampleInit).rtvViews[1]?] :=
  ⟨by decide,
    (rtv_handle_addressing 3 exampleInit [keepUpEnv 0] (keepUpEnv 1) 1 (by decide)
      (by decide)).1,
    (rtv_handle_addressing 3 exampleInit [keepUpEnv 0] (keepUpEnv 1) 1 (by decide)
      (by decide)).2.2.1⟩

end MeshShader
